import Mathlib

/-!
Shallow embedding of the noncon2 Excel loader (`src/excel_loader.py`).

The loader opens a zip-packaged spreadsheet, resolves shared strings,
locates the log and dropdown worksheets by a two-stage heuristic, and
extracts tag records and dropdown option lists.

Modelling conventions:
* XML shape is given structurally: a `Cell` carries its `r` / `t`
  attributes and the text of its `<v>` child (`none` when the `<v>`
  element is absent; the element being present with no text is `some ""`,
  matching `v.text or ""`).  A `Workbook` carries the shared-strings part
  (`none` when the part is absent), the `sheet_targets` mapping in
  iteration order, and the worksheet parts keyed by part path.
* Python exceptions are modelled with `Except Err`; an uncaught exception
  is an `.error` value that propagates through `Except` bind, matching
  the abort-the-whole-load behaviour.
* Python `str.strip` / `str.lower` and the `[A-Z]`, `[0-9]` regex classes
  are modelled over the ASCII range (the loader's markers, column letters
  and numerals are all ASCII).
* Python `float(text)` is modelled by an exact decimal parse
  (sign, digits, fractional part, exponent, `inf` / `infinity` / `nan`),
  keeping the exact value as `mantissa * 10 ^ exponent`; rounding to an
  IEEE double (and digit-group underscores) is abstracted away, which is
  immaterial to any value a serial-date cell can meaningfully hold.
-/

namespace Noncon

/-- Characters treated as whitespace by `str.strip` (ASCII fragment). -/
def isSpaceChar (c : Char) : Bool := c = ' ' ∨ c = '\t' ∨ c = '\n' ∨ c = '\r'

/-- `str.strip()` on the character list: drop whitespace on both ends. -/
def stripChars (l : List Char) : List Char :=
  ((l.dropWhile isSpaceChar).reverse.dropWhile isSpaceChar).reverse

/-- `str.strip()`. -/
def pyStrip (s : String) : String := ⟨stripChars s.data⟩

/-- `str.lower()` (ASCII range). -/
def pyLower (s : String) : String := ⟨s.data.map Char.toLower⟩

/-- Does `needle` occur contiguously inside `hay`? -/
def listHasInfix : List Char → List Char → Bool
  | [], needle => needle.isEmpty
  | c :: t, needle => needle.isPrefixOf (c :: t) || listHasInfix t needle

/-- Python `needle in hay` substring test. -/
def strContains (hay needle : String) : Bool := listHasInfix hay.data needle.data

/-- `hay.startswith(needle)`. -/
def strStartsWith (hay needle : String) : Bool := needle.data.isPrefixOf hay.data

/-- Numeric value of a digit run (most significant first). -/
def digitsVal (l : List Char) : Nat :=
  l.foldl (fun a c => a * 10 + (c.toNat - '0'.toNat)) 0

/-- Peel an optional leading sign; returns (negative?, rest). -/
def parseSign : List Char → Bool × List Char
  | '+' :: r => (false, r)
  | '-' :: r => (true, r)
  | l => (false, l)

/-- `int(s)`: strip, optional sign, nonempty digit run; `none` models the
`ValueError` raised on anything else. -/
def pyInt (s : String) : Option Int :=
  let l := stripChars s.data
  let (neg, r) := parseSign l
  if r ≠ [] ∧ r.all Char.isDigit then
    some (if neg then -(digitsVal r : Int) else (digitsVal r : Int))
  else none

/-- Result of `float(text)`: a finite exact decimal `m * 10 ^ e`,
an infinity, or NaN. -/
inductive PyFloat where
  | finite (m : Int) (e : Int)
  | inf (neg : Bool)
  | nan
  deriving DecidableEq, Repr

/-- The finite case of the float grammar after the sign:
`digits [. digits] [exp]` or `. digits [exp]` with `exp = (e|E) sign digits`,
consuming the whole input. -/
def parseDecimal (neg : Bool) (l : List Char) : Option PyFloat :=
  let ip := l.takeWhile Char.isDigit
  let r1 := l.dropWhile Char.isDigit
  let fr : List Char × List Char :=
    match r1 with
    | '.' :: t => (t.takeWhile Char.isDigit, t.dropWhile Char.isDigit)
    | _ => ([], r1)
  let fp := fr.1
  let r2 := fr.2
  if ip = [] ∧ fp = [] then none
  else
    let mant : Int := if neg then -(digitsVal (ip ++ fp) : Int) else (digitsVal (ip ++ fp) : Int)
    let e0 : Int := -(fp.length : Int)
    match r2 with
    | [] => some (.finite mant e0)
    | c :: t =>
      if c = 'e' ∨ c = 'E' then
        let (eneg, t1) := parseSign t
        let ed := t1.takeWhile Char.isDigit
        let t2 := t1.dropWhile Char.isDigit
        if ed = [] ∨ t2 ≠ [] then none
        else
          let ex : Int := if eneg then -(digitsVal ed : Int) else (digitsVal ed : Int)
          some (.finite mant (e0 + ex))
      else none

/-- `float(s)` on already-stripped text; `none` models `ValueError`. -/
def parseFloat (s : String) : Option PyFloat :=
  let (neg, rest) := parseSign s.data
  let low := rest.map Char.toLower
  if low = "inf".data ∨ low = "infinity".data then some (.inf neg)
  else if low = "nan".data then some .nan
  else parseDecimal neg rest

/-- `int(float)`: truncation toward zero of the exact value `m * 10 ^ e`. -/
def truncTowardZero (m e : Int) : Int :=
  if 0 ≤ e then m * (10 : Int) ^ e.toNat else Int.tdiv m ((10 : Int) ^ (-e).toNat)

/-- Proleptic-Gregorian date from a day count, `z` days after 0000-03-01
(Hinnant's civil-from-days shifted to stay in `Nat`); returns (y, m, d). -/
def civilFromDays (z : Nat) : Nat × Nat × Nat :=
  let era := z / 146097
  let doe := z % 146097
  let yoe := (doe - doe / 1460 + doe / 36524 - doe / 146096) / 365
  let doy := doe - (365 * yoe + yoe / 4 - yoe / 100)
  let mp := (5 * doy + 2) / 153
  let d := doy - (153 * mp + 2) / 5 + 1
  let m := if mp < 10 then mp + 3 else mp - 9
  (yoe + era * 400 + (if m ≤ 2 then 1 else 0), m, d)

/-- Left-pad the decimal form of `n` with zeros to width `w`. -/
def padZero (w : Nat) (n : Nat) : String :=
  let s := toString n
  ⟨List.replicate (w - s.length) '0'⟩ ++ s

/-- `date.isoformat()` of the date with the given proleptic-Gregorian
ordinal (`date(1,1,1)` has ordinal 1). -/
def isoOfOrdinal (ord : Nat) : String :=
  let ymd := civilFromDays (ord + 305)
  padZero 4 ymd.1 ++ "-" ++ padZero 2 ymd.2.1 ++ "-" ++ padZero 2 ymd.2.2

/-- Ordinal of `BASE_DATE = datetime(1899, 12, 30)`. -/
def baseDateOrdinal : Int := 693594

/-- Ordinal of `datetime.max` (9999-12-31); with ordinal 1 (0001-01-01)
these bound the dates representable by `datetime`, and stepping outside
raises the `OverflowError` that the converter catches. -/
def maxDateOrdinal : Int := 3652059

/-- Python exceptions that can escape the loader. -/
inductive Err where
  | keyError (part : String)
  | valueError (msg : String)
  | indexError
  | overflowError (msg : String)
  deriving DecidableEq, Repr

/-- `excel_serial_to_iso(value)`.  `.ok none` is Python `None`;
`.error` is an uncaught exception: `int(serial)` sits outside both
`try` blocks, so a NaN or infinite parse escapes. -/
def excel_serial_to_iso (value : Option String) : Except Err (Option String) :=
  match value with
  | none => .ok none
  | some v =>
    let text := pyStrip v
    if text = "" then .ok none
    else
      match parseFloat text with
      | none => .ok none
      | some .nan => .error (.valueError "cannot convert float NaN to integer")
      | some (.inf _) => .error (.overflowError "cannot convert float infinity to integer")
      | some (.finite m e) =>
        let days := truncTowardZero m e
        let ord := baseDateOrdinal + days
        if ord < 1 ∨ maxDateOrdinal < ord then .ok none
        else .ok (some (isoOfOrdinal ord.toNat))

/-- `FIELD_MAP`: fixed column-letter → canonical-field table. -/
def FIELD_MAP : List (String × String) :=
  [("A", "tag_number"), ("C", "part_description"), ("E", "rejection_type"),
   ("G", "rejection_class"), ("I", "defect_description"), ("K", "rejected_by"),
   ("M", "containment_date"), ("O", "total_rejected_qty_initial"), ("Q", "mfg_date"),
   ("S", "mfg_shift"), ("U", "supplier"), ("W", "total_rejected_qty_final"),
   ("Y", "disposition"), ("AA", "authorized_by"), ("AC", "date_authorized"),
   ("AE", "date_sort_rework"), ("AG", "good_pcs"), ("AI", "reworked_pcs"),
   ("AK", "scrap_pcs"), ("AM", "complete"), ("AO", "closed_date"),
   ("AQ", "closed_by"), ("AS", "qad_number"), ("AU", "qad_date"), ("AW", "completed_by")]

/-- `DATE_FIELDS`: fields whose values go through the serial converter. -/
def DATE_FIELDS : List String :=
  ["containment_date", "mfg_date", "date_authorized", "date_sort_rework",
   "closed_date", "qad_date"]

/-- One `<c>` element: its `r` and `t` attributes and its `<v>` child's
text (`none` when there is no `<v>` element at all). -/
structure Cell where
  r : Option String
  t : Option String
  v : Option String
  deriving DecidableEq, Repr

/-- One `<row>` element: its `r` attribute and its `<c>` children. -/
structure Row where
  r : Option String
  cells : List Cell
  deriving DecidableEq, Repr

/-- The opened package, from the loader's vantage point after
`_sheet_targets`: the optional shared-strings part (each `si` as its list
of `t`-run texts), the name → part-path mapping in iteration order, and
the worksheet parts. -/
structure Workbook where
  sharedStrings : Option (List (List String))
  sheets : List (String × String)
  parts : List (String × List Row)
  deriving Repr

/-- `zf.read(path)` + row extraction; a missing part raises `KeyError`. -/
def getPart (zf : Workbook) (path : String) : Except Err (List Row) :=
  match zf.parts.lookup path with
  | some rows => .ok rows
  | none => .error (.keyError path)

/-- `_read_shared_strings`: absent part ⇒ empty table; otherwise each
`si` becomes the concatenation of its text runs. -/
def readSharedStrings (part : Option (List (List String))) : List String :=
  match part with
  | none => []
  | some sis => sis.map (fun runs => String.join runs)

/-- Python `lst[i]`: negative indices count from the end; out of range
raises `IndexError`. -/
def pyListGet (l : List String) (i : Int) : Except Err String :=
  let j := if i < 0 then i + l.length else i
  if j < 0 then .error .indexError
  else
    match l.get? j.toNat with
    | some s => .ok s
    | none => .error .indexError

/-- `_cell_value`: `.ok none` for a cell with no `<v>`; a shared-string
cell resolves through the table only when the table is nonempty
(`if self._shared_strings else raw`), with `int(raw)` and the list
index both able to raise. -/
def cellValue (shared : List String) (cell : Cell) : Except Err (Option String) :=
  match cell.v with
  | none => .ok none
  | some raw =>
    if cell.t = some "s" then
      if shared ≠ [] then
        match pyInt raw with
        | none => .error (.valueError raw)
        | some i =>
          match pyListGet shared i with
          | .ok s => .ok (some s)
          | .error e => .error e
      else .ok (some raw)
    else .ok (some raw)

/-- `re.match(r"([A-Z]+)", r)`: the leading ASCII-uppercase run, or
`none` when the address does not start with one. -/
def matchColumn (r : String) : Option String :=
  let col := r.data.takeWhile (fun c => 'A' ≤ c ∧ c ≤ 'Z')
  if col = [] then none else some ⟨col⟩

/-- `re.match(r"([A-Z]+)([0-9]+)", r)`: leading uppercase run immediately
followed by a digit run (trailing text permitted, as with `re.match`). -/
def matchColRow (r : String) : Option (String × String) :=
  let col := r.data.takeWhile (fun c => 'A' ≤ c ∧ c ≤ 'Z')
  let rest := r.data.dropWhile (fun c => 'A' ≤ c ∧ c ≤ 'Z')
  let row := rest.takeWhile Char.isDigit
  if col = [] ∨ row = [] then none else some (⟨col⟩, ⟨row⟩)

/-- Python-dict assignment `record[field] = v`: replace in place or
append at the end. -/
def recordInsert (rec : List (String × String)) (k v : String) : List (String × String) :=
  if rec.any (fun p => p.1 = k) then
    rec.map (fun p => if p.1 = k then (k, v) else p)
  else rec ++ [(k, v)]

/-- Python `iso or value`: keep `iso` when truthy, else fall back. -/
def pyOr (iso : Option String) (fallback : String) : String :=
  match iso with
  | some s => if s = "" then fallback else s
  | none => fallback

/-- The body of `_read_log_records`' per-cell loop: route the decoded,
stripped value into the record and raise the `has_text` flag; date
fields go through the serial converter, falling back to the trimmed
string. -/
def cellStep (shared : List String) (acc : List (String × String) × Bool) (cell : Cell) :
    Except Err (List (String × String) × Bool) :=
  match matchColumn (cell.r.getD "") with
  | none => .ok acc
  | some column =>
    match FIELD_MAP.lookup column with
    | none => .ok acc
    | some field =>
      match cellValue shared cell with
      | .error e => .error e
      | .ok vo =>
        match vo with
        | none => .ok acc
        | some value0 =>
          let value := pyStrip value0
          if value = "" then .ok acc
          else
            if field ∈ DATE_FIELDS then
              match excel_serial_to_iso (some value) with
              | .error e => .error e
              | .ok iso => .ok (recordInsert acc.1 field (pyOr iso value), true)
            else .ok (recordInsert acc.1 field value, true)

/-- Left fold of `cellStep` over a row's cells, aborting at the first
uncaught exception. -/
def cellFold (shared : List String) (acc : List (String × String) × Bool) :
    List Cell → Except Err (List (String × String) × Bool)
  | [] => .ok acc
  | c :: cs =>
    match cellStep shared acc c with
    | .error e => .error e
    | .ok acc' => cellFold shared acc' cs

/-- One iteration of `_read_log_records`' row loop: parse the row index
(default `"0"`), skip rows below 7, else fold the cells and keep the
record iff `has_text`. -/
def processRow (shared : List String) (row : Row) :
    Except Err (Option (List (String × String))) :=
  match pyInt (row.r.getD "0") with
  | none => .error (.valueError (row.r.getD "0"))
  | some idx =>
    if idx < 7 then .ok none
    else
      match cellFold shared ([], false) row.cells with
      | .error e => .error e
      | .ok acc => .ok (if acc.2 then some acc.1 else none)

/-- `_read_log_records`: process every row in document order, collecting
the rows that produced a record. -/
def readLogRecords (shared : List String) (zf : Workbook) (path : String) :
    Except Err (List (List (String × String))) :=
  match getPart zf path with
  | .error e => .error e
  | .ok rows => go rows
where
  go : List Row → Except Err (List (List (String × String)))
    | [] => .ok []
    | r :: rs =>
      match processRow shared r with
      | .error e => .error e
      | .ok ro =>
        match ro with
        | none => go rs
        | some rec =>
          match go rs with
          | .error e => .error e
          | .ok recs => .ok (rec :: recs)

/-- A cell "counts toward inclusion" in `_read_log_records`: its address
has a leading uppercase run mapped by `FIELD_MAP` and it decodes without
error to a value that strips to nonempty text. -/
def cellContributes (shared : List String) (c : Cell) : Bool :=
  match matchColumn (c.r.getD "") with
  | none => false
  | some column =>
    match FIELD_MAP.lookup column with
    | none => false
    | some _ =>
      match cellValue shared c with
      | .error _ => false
      | .ok vo =>
        match vo with
        | some v => pyStrip v != ""
        | none => false

/-- The three dropdown option lists. -/
structure Dropdowns where
  rejection_type : List String
  rejection_class : List String
  disposition : List String
  deriving DecidableEq, Repr

/-- The empty dropdown accumulator. -/
def Dropdowns.empty : Dropdowns := ⟨[], [], []⟩

/-- The body of `_read_dropdowns`' per-cell loop: parse the address, skip
row `"1"`, skip falsy values, then strip and route by column letter.
Note the stripped value is appended with no further emptiness check. -/
def dropStep (shared : List String) (acc : Dropdowns) (cell : Cell) : Except Err Dropdowns :=
  match matchColRow (cell.r.getD "") with
  | none => .ok acc
  | some cr =>
    if cr.2 = "1" then .ok acc
    else
      match cellValue shared cell with
      | .error e => .error e
      | .ok v =>
        if v = none ∨ v = some "" then .ok acc
        else
          let value := pyStrip (v.getD "")
          if cr.1 = "A" then .ok { acc with rejection_type := acc.rejection_type ++ [value] }
          else if cr.1 = "C" then .ok { acc with rejection_class := acc.rejection_class ++ [value] }
          else if cr.1 = "E" then .ok { acc with disposition := acc.disposition ++ [value] }
          else .ok acc

/-- Left fold of `dropStep` over the sheet's cells in document order. -/
def dropFold (shared : List String) (acc : Dropdowns) :
    List Cell → Except Err Dropdowns
  | [] => .ok acc
  | c :: cs =>
    match dropStep shared acc c with
    | .error e => .error e
    | .ok acc' => dropFold shared acc' cs

/-- The dedup loop: keep the first occurrence of each value, in order. -/
def dedupAux (seen : List String) : List String → List String
  | [] => []
  | x :: xs => if x ∈ seen then dedupAux seen xs else x :: dedupAux (x :: seen) xs

/-- Deduplicate preserving first-occurrence order. -/
def dedup (l : List String) : List String := dedupAux [] l

/-- All cells of a sheet in document order (`sheetData/row/c`). -/
def sheetCells (rows : List Row) : List Cell := (rows.map Row.cells).flatten

/-- `_read_dropdowns`: scan every cell, then deduplicate each list. -/
def readDropdowns (shared : List String) (zf : Workbook) (path : String) :
    Except Err Dropdowns :=
  match getPart zf path with
  | .error e => .error e
  | .ok rows =>
    match dropFold shared Dropdowns.empty (sheetCells rows) with
    | .error e => .error e
    | .ok d => .ok ⟨dedup d.rejection_type, dedup d.rejection_class, dedup d.disposition⟩

/-- `_sheet_contains_text`: does some cell's decoded value (truthy) contain
the needle, case-insensitively?  Decoding failures propagate. -/
def sheetContainsText (shared : List String) (zf : Workbook) (path needle : String) :
    Except Err Bool :=
  match getPart zf path with
  | .error e => .error e
  | .ok rows => go (sheetCells rows)
where
  go : List Cell → Except Err Bool
    | [] => .ok false
    | c :: cs =>
      match cellValue shared c with
      | .error e => .error e
      | .ok v =>
        if v ≠ none ∧ v ≠ some "" ∧ strContains (pyLower (v.getD "")) (pyLower needle) then
          .ok true
        else go cs

/-- The fallback probe loop shared by both locators: first part whose
sheet contains the needle. -/
def probeSheets (shared : List String) (zf : Workbook) (needle : String) :
    List String → Except Err (Option String)
  | [] => .ok none
  | p :: ps =>
    match sheetContainsText shared zf p needle with
    | .error e => .error e
    | .ok b => if b then .ok (some p) else probeSheets shared zf needle ps

/-- `_find_log_sheet`: first a case-insensitive name match against the
literal `"nc log"`, then a content probe of every sheet for `"Tag Number"`. -/
def findLogSheet (shared : List String) (zf : Workbook)
    (targets : List (String × String)) : Except Err (Option String) :=
  match targets.find? (fun p => strStartsWith (pyLower p.1) "nc log") with
  | some p => .ok (some p.2)
  | none => probeSheets shared zf "Tag Number" (targets.map Prod.snd)

/-- The first loop of `_find_dropdown_sheet`: sheets whose name contains
`"sheet"` are probed for the marker as they are encountered. -/
def dropdownNameLoop (shared : List String) (zf : Workbook) :
    List (String × String) → Except Err (Option String)
  | [] => .ok none
  | p :: ps =>
    if strContains (pyLower p.1) "sheet" then
      match sheetContainsText shared zf p.2 "Rejection Type:" with
      | .error e => .error e
      | .ok b => if b then .ok (some p.2) else dropdownNameLoop shared zf ps
    else dropdownNameLoop shared zf ps

/-- `_find_dropdown_sheet`: the name-restricted probe, then a probe of
every sheet. -/
def findDropdownSheet (shared : List String) (zf : Workbook)
    (targets : List (String × String)) : Except Err (Option String) :=
  match dropdownNameLoop shared zf targets with
  | .error e => .error e
  | .ok r =>
    match r with
    | some p => .ok (some p)
    | none => probeSheets shared zf "Rejection Type:" (targets.map Prod.snd)

/-- The aggregate result of one load. -/
structure ExcelData where
  records : List (List (String × String))
  dropdowns : Dropdowns
  deriving DecidableEq, Repr

/-- `NonconExcelLoader.load` from the point where `sheet_targets` is in
hand: locate both sheets (raising a distinct `ValueError` for each
failure), then run both extraction passes. -/
def loadExcelData (zf : Workbook) : Except Err ExcelData :=
  let shared := readSharedStrings zf.sharedStrings
  match findLogSheet shared zf zf.sheets with
  | .error e => .error e
  | .ok lo =>
    match lo with
    | none => .error (.valueError "Could not locate NC Log worksheet in workbook.")
    | some logPath =>
      match findDropdownSheet shared zf zf.sheets with
      | .error e => .error e
      | .ok dro =>
        match dro with
        | none => .error (.valueError "Could not locate dropdown worksheet in workbook.")
        | some dropPath =>
          match readLogRecords shared zf logPath with
          | .error e => .error e
          | .ok records =>
            match readDropdowns shared zf dropPath with
            | .error e => .error e
            | .ok dropdowns => .ok ⟨records, dropdowns⟩

/-- Every entry of every dropdown list is strip-stable (already trimmed). -/
def TrimmedLists (d : Dropdowns) : Prop :=
  (∀ s ∈ d.rejection_type, pyStrip s = s) ∧
    (∀ s ∈ d.rejection_class, pyStrip s = s) ∧
    (∀ s ∈ d.disposition, pyStrip s = s)

/-! ## Helper lemmas -/

/-- A prefix of a list with no leading run of `p` has no leading run of `p`. -/
theorem dropWhile_eq_self_of_isPrefix {p : Char → Bool} {u s : List Char}
    (hu : u.dropWhile p = u) (hpre : s <+: u) : s.dropWhile p = s := by
  cases s with
  | nil => rfl
  | cons c t =>
    obtain ⟨r, hr⟩ := hpre
    subst hr
    have h0 : 0 < (c :: t ++ r).length := by simp
    have hc := List.dropWhile_eq_self_iff.mp hu h0
    simp only [List.cons_append, List.get] at hc
    simp [List.dropWhile_cons, hc]

/-- `stripChars` as a left strip followed by a right strip. -/
theorem stripChars_eq_rdropWhile (v : List Char) :
    stripChars v = List.rdropWhile isSpaceChar (v.dropWhile isSpaceChar) := by
  simp [stripChars, List.rdropWhile]

/-- Stripping both ends twice is the same as stripping once. -/
theorem stripChars_idem (l : List Char) : stripChars (stripChars l) = stripChars l := by
  have hls : (stripChars l).dropWhile isSpaceChar = stripChars l := by
    rw [stripChars_eq_rdropWhile l]
    exact dropWhile_eq_self_of_isPrefix (List.dropWhile_idempotent _ _)
      (List.rdropWhile_prefix _ _)
  rw [stripChars_eq_rdropWhile (stripChars l), hls, stripChars_eq_rdropWhile l,
    List.rdropWhile_idempotent]

/-- `str.strip()` is idempotent. -/
theorem pyStrip_idem (s : String) : pyStrip (pyStrip s) = pyStrip s :=
  congrArg String.mk (stripChars_idem s.data)

/-! ## Claims -/

/-- C1: the claim says the Date Serial Converter never raises, but
`int(serial)` sits outside both `try` blocks: the parseable inputs
`"nan"` and `"inf"` make `int(float(text))` raise an uncaught
`ValueError` / `OverflowError`, aborting the load.  The last two
conjuncts record the behaviour the claim correctly describes on
whitespace-only and non-numeric input. -/
theorem c1_serial_converter_raises_on_nan_and_inf :
    excel_serial_to_iso (some "nan")
        = .error (.valueError "cannot convert float NaN to integer") ∧
      excel_serial_to_iso (some "inf")
        = .error (.overflowError "cannot convert float infinity to integer") ∧
      excel_serial_to_iso (some "   ") = .ok none ∧
      excel_serial_to_iso (some "abc") = .ok none :=
  ⟨rfl, rfl, rfl, rfl⟩

/-- C2: counterexample to the claim as stated.  When the shared-strings
part is absent the table is empty, and a shared-string-typed cell whose
stored index 5 is ≥ the table's length 0 does NOT fail: `_cell_value`
falls back to the raw text `"5"`. -/
theorem c2_counterexample :
    readSharedStrings none = [] ∧
      cellValue (readSharedStrings none) ⟨some "A1", some "s", some "5"⟩
        = .ok (some "5") :=
  ⟨rfl, rfl⟩

/-- C2 amended: only against a NONEMPTY shared-string table does a
shared-string cell whose stored index is ≥ the table's length fail with
an uncaught IndexError; with an empty table the cell resolves to its raw
stored text instead. -/
theorem c2_amended (shared : List String) (cell : Cell) (raw : String) (i : Int)
    (h1 : shared ≠ []) (h2 : cell.t = some "s") (h3 : cell.v = some raw)
    (h4 : pyInt raw = some i) (h5 : (shared.length : Int) ≤ i) :
    cellValue shared cell = .error .indexError := by
  have hlen : 1 ≤ shared.length := List.length_pos.mpr h1
  have hi0 : ¬ i < 0 := by omega
  have hnone : shared.get? i.toNat = none := by
    rw [List.get?_eq_none]
    omega
  simp only [cellValue, h3, if_pos h2, if_pos h1, h4, pyListGet,
    if_neg hi0, hnone]

/-- C2 amended, witnessed at a table of length 1 and stored index 1. -/
theorem c2_witness :
    cellValue ["only"] ⟨some "A1", some "s", some "1"⟩ = .error .indexError :=
  c2_amended ["only"] ⟨some "A1", some "s", some "1"⟩ "1" 1
    (by decide) rfl rfl (by decide) (by decide)

/-- C8: when the shared-strings part is absent the table is empty and
every cell with a `<v>` element — shared-string-typed or not — resolves
to its literal stored text, with no error. -/
theorem c8_absent_shared_strings (cell : Cell) (raw : String) (h : cell.v = some raw) :
    readSharedStrings none = [] ∧
      cellValue (readSharedStrings none) cell = .ok (some raw) := by
  refine ⟨rfl, ?_⟩
  by_cases ht : cell.t = some "s"
  · simp only [cellValue, h, if_pos ht,
      if_neg (show ¬ readSharedStrings none ≠ [] from fun hne => hne rfl)]
  · simp only [cellValue, h, if_neg ht]

/-- C8, witnessed at a shared-string-typed cell storing `"7"`. -/
theorem c8_witness :
    readSharedStrings none = [] ∧
      cellValue (readSharedStrings none) ⟨some "B2", some "s", some "7"⟩
        = .ok (some "7") :=
  c8_absent_shared_strings ⟨some "B2", some "s", some "7"⟩ "7" rfl

/-- C10: with a nonempty table of length n, a shared-string cell whose
raw text parses as `-k` (1 ≤ k ≤ n) resolves without error to the entry
at position n - k: Python's end-relative list indexing. -/
theorem c10_negative_index_resolves (shared : List String) (cell : Cell)
    (raw : String) (k : Nat) (h1 : shared ≠ []) (h2 : cell.t = some "s")
    (h3 : cell.v = some raw) (h4 : pyInt raw = some (-(k : Int)))
    (h5 : 1 ≤ k) (h6 : k ≤ shared.length) :
    cellValue shared cell = .ok (shared.get? (shared.length - k)) := by
  have hneg : (-(k : Int)) < 0 := by omega
  have hj : ¬ ((-(k : Int)) + shared.length < 0) := by omega
  have htn : ((-(k : Int)) + shared.length).toNat = shared.length - k := by omega
  have hlt : shared.length - k < shared.length := by omega
  simp only [cellValue, h3, if_pos h2, if_pos h1, h4, pyListGet,
    if_pos hneg, if_neg hj, htn, List.get?_eq_get hlt]

/-- C10, witnessed: index `-1` against a three-entry table resolves to
the last entry. -/
theorem c10_witness :
    cellValue ["a", "b", "c"] ⟨some "A1", some "s", some "-1"⟩
      = .ok (["a", "b", "c"].get? 2) :=
  c10_negative_index_resolves ["a", "b", "c"] ⟨some "A1", some "s", some "-1"⟩
    "-1" 1 (by decide) rfl rfl (by decide) (by decide) (by decide)

/-- The `has_text` flag after one cell: it is raised exactly when the
cell counts toward inclusion (when the step does not raise). -/
theorem cellStep_snd {shared : List String} {acc acc' : List (String × String) × Bool}
    {c : Cell} (h : cellStep shared acc c = .ok acc') :
    acc'.2 = (acc.2 || cellContributes shared c) := by
  unfold cellStep at h
  unfold cellContributes
  cases hm : matchColumn (c.r.getD "") with
  | none =>
    simp only [hm] at h
    injection h with h; subst h; simp
  | some col =>
    simp only [hm] at h ⊢
    cases hf : FIELD_MAP.lookup col with
    | none =>
      simp only [hf] at h
      injection h with h; subst h; simp
    | some field =>
      simp only [hf] at h ⊢
      cases hv : cellValue shared c with
      | error e =>
        simp only [hv] at h
        exact Except.noConfusion h
      | ok vo =>
        simp only [hv] at h ⊢
        cases vo with
        | none => injection h with h; subst h; simp
        | some value0 =>
          simp only at h ⊢
          by_cases hs : pyStrip value0 = ""
          · rw [if_pos hs] at h
            injection h with h; subst h
            simp [hs]
          · rw [if_neg hs] at h
            by_cases hd : field ∈ DATE_FIELDS
            · rw [if_pos hd] at h
              cases hi : excel_serial_to_iso (some (pyStrip value0)) with
              | error e =>
                rw [hi] at h
                exact Except.noConfusion h
              | ok iso =>
                rw [hi] at h
                injection h with h; subst h
                simp [bne_iff_ne, hs]
            · rw [if_neg hd] at h
              injection h with h; subst h
              simp [bne_iff_ne, hs]

/-- The `has_text` flag after a run of cells: raised exactly when it was
already raised or some processed cell counts toward inclusion. -/
theorem cellFold_snd {shared : List String} :
    ∀ (cs : List Cell) (acc acc₂ : List (String × String) × Bool),
      cellFold shared acc cs = .ok acc₂ →
      (acc₂.2 = true ↔ acc.2 = true ∨ ∃ c ∈ cs, cellContributes shared c = true)
  | [], acc, acc₂, h => by
    injection h with h; subst h; simp
  | c :: cs, acc, acc₂, h => by
    unfold cellFold at h
    cases hs : cellStep shared acc c with
    | error e =>
      simp only [hs] at h
      exact Except.noConfusion h
    | ok acc' =>
      simp only [hs] at h
      have h2 := cellFold_snd cs acc' acc₂ h
      have h1 := cellStep_snd hs
      rw [h2, h1]
      simp only [Bool.or_eq_true]
      constructor
      · rintro ((ha | hc) | ⟨c', hc', hp⟩)
        · exact Or.inl ha
        · exact Or.inr ⟨c, List.mem_cons_self c cs, hc⟩
        · exact Or.inr ⟨c', List.mem_cons_of_mem c hc', hp⟩
      · rintro (ha | ⟨c', hc', hp⟩)
        · exact Or.inl (Or.inl ha)
        · rcases List.mem_cons.mp hc' with hh | hh
          · subst hh; exact Or.inl (Or.inr hp)
          · exact Or.inr ⟨c', hh, hp⟩

/-- C6: a log-sheet row whose parsed row index is below 7 is skipped
unconditionally — `processRow` yields no record whatever its cells hold. -/
theorem c6_header_rows_skipped (shared : List String) (row : Row) (i : Int)
    (h1 : pyInt (row.r.getD "0") = some i) (h2 : i < 7) :
    processRow shared row = .ok none := by
  simp only [processRow, h1, if_pos h2]

/-- C6, witnessed: row 3 with a nonempty mapped (column A) cell still
contributes nothing. -/
theorem c6_witness :
    processRow [] ⟨some "3", [⟨some "A3", none, some "tag-entry"⟩]⟩ = .ok none :=
  c6_header_rows_skipped [] ⟨some "3", [⟨some "A3", none, some "tag-entry"⟩]⟩ 3
    rfl (by decide)

/-- C5: serial 0 converts to the epoch anchor 1899-12-30 and serial 1 to
the following day; two serials with the same truncated integer day count
convert identically (fractions are truncated before the epoch offset is
added); and a date-typed cell whose text is non-numeric stores the
trimmed original string unchanged. -/
theorem c5_serial_epoch_truncation_passthrough (v w : String) (m e m' e' : Int)
    (shared : List String) (acc : List (String × String) × Bool) (cell : Cell)
    (col field raw : String)
    (h1 : parseFloat (pyStrip v) = some (.finite m e))
    (h2 : parseFloat (pyStrip w) = some (.finite m' e'))
    (h3 : truncTowardZero m e = truncTowardZero m' e')
    (h4 : matchColumn (cell.r.getD "") = some col)
    (h5 : FIELD_MAP.lookup col = some field)
    (h6 : field ∈ DATE_FIELDS)
    (h7 : cellValue shared cell = .ok (some raw))
    (h8 : pyStrip raw ≠ "")
    (h9 : excel_serial_to_iso (some (pyStrip raw)) = .ok none) :
    excel_serial_to_iso (some "0") = .ok (some "1899-12-30") ∧
      excel_serial_to_iso (some "1") = .ok (some "1899-12-31") ∧
      excel_serial_to_iso (some v) = excel_serial_to_iso (some w) ∧
      cellStep shared acc cell = .ok (recordInsert acc.1 field (pyStrip raw), true) := by
  have hveq : ¬ pyStrip v = "" := by
    intro hv
    rw [hv] at h1
    exact Option.noConfusion ((rfl : parseFloat "" = none) ▸ h1)
  have hweq : ¬ pyStrip w = "" := by
    intro hw
    rw [hw] at h2
    exact Option.noConfusion ((rfl : parseFloat "" = none) ▸ h2)
  refine ⟨rfl, rfl, ?_, ?_⟩
  · simp only [excel_serial_to_iso, if_neg hveq, if_neg hweq, h1, h2, h3]
  · simp only [cellStep, h4, h5, h7, if_neg h8, if_pos h6, h9, pyOr]

/-- C5, witnessed: `"2.7"` and `" 2.9 "` both truncate to day 2 and so
convert identically, and the non-numeric date cell `" abc "` stores
`"abc"`. -/
theorem c5_witness :
    excel_serial_to_iso (some "0") = .ok (some "1899-12-30") ∧
      excel_serial_to_iso (some "1") = .ok (some "1899-12-31") ∧
      excel_serial_to_iso (some "2.7") = excel_serial_to_iso (some " 2.9 ") ∧
      cellStep [] ([], false) ⟨some "M9", none, some " abc "⟩
        = .ok (recordInsert [] "containment_date" (pyStrip " abc "), true) :=
  c5_serial_epoch_truncation_passthrough "2.7" " 2.9 " 27 (-1) 29 (-1) []
    ([], false) ⟨some "M9", none, some " abc "⟩ "M" "containment_date" " abc "
    rfl rfl (by decide) rfl (by decide) (by decide) rfl (by decide) rfl

/-- Deduplication only drops elements, so membership is preserved
backwards. -/
theorem mem_of_mem_dedupAux {x : String} :
    ∀ (seen l : List String), x ∈ dedupAux seen l → x ∈ l
  | _, [], h => by simp [dedupAux] at h
  | seen, y :: ys, h => by
    unfold dedupAux at h
    by_cases hy : y ∈ seen
    · rw [if_pos hy] at h
      exact List.mem_cons_of_mem y (mem_of_mem_dedupAux seen ys h)
    · rw [if_neg hy] at h
      rcases List.mem_cons.mp h with hh | hh
      · exact hh ▸ List.mem_cons_self y ys
      · exact List.mem_cons_of_mem y (mem_of_mem_dedupAux (y :: seen) ys hh)

/-- Membership after `dedup` implies membership before. -/
theorem mem_of_mem_dedup {x : String} {l : List String} (h : x ∈ dedup l) : x ∈ l :=
  mem_of_mem_dedupAux [] l h

/-- One `dropStep` preserves strip-stability of all three lists: the only
strings ever appended are `pyStrip` images, and `pyStrip` is idempotent. -/
theorem dropStep_trimmed {shared : List String} {acc acc' : Dropdowns} {c : Cell}
    (h : dropStep shared acc c = .ok acc') (ht : TrimmedLists acc) :
    TrimmedLists acc' := by
  unfold dropStep at h
  cases hm : matchColRow (c.r.getD "") with
  | none =>
    simp only [hm] at h
    injection h with h; subst h; exact ht
  | some cr =>
    simp only [hm] at h
    by_cases hrow : cr.2 = "1"
    · rw [if_pos hrow] at h
      injection h with h; subst h; exact ht
    · rw [if_neg hrow] at h
      cases hv : cellValue shared c with
      | error e =>
        simp only [hv] at h
        exact Except.noConfusion h
      | ok v =>
        simp only [hv] at h
        by_cases hfal : v = none ∨ v = some ""
        · rw [if_pos hfal] at h
          injection h with h; subst h; exact ht
        · rw [if_neg hfal] at h
          obtain ⟨t1, t2, t3⟩ := ht
          by_cases hA : cr.1 = "A"
          · rw [if_pos hA] at h
            injection h with h; subst h
            refine ⟨?_, t2, t3⟩
            intro s hs
            rcases List.mem_append.mp hs with hh | hh
            · exact t1 s hh
            · rw [List.mem_singleton.mp hh]; exact pyStrip_idem _
          · rw [if_neg hA] at h
            by_cases hC : cr.1 = "C"
            · rw [if_pos hC] at h
              injection h with h; subst h
              refine ⟨t1, ?_, t3⟩
              intro s hs
              rcases List.mem_append.mp hs with hh | hh
              · exact t2 s hh
              · rw [List.mem_singleton.mp hh]; exact pyStrip_idem _
            · rw [if_neg hC] at h
              by_cases hE : cr.1 = "E"
              · rw [if_pos hE] at h
                injection h with h; subst h
                refine ⟨t1, t2, ?_⟩
                intro s hs
                rcases List.mem_append.mp hs with hh | hh
                · exact t3 s hh
                · rw [List.mem_singleton.mp hh]; exact pyStrip_idem _
              · rw [if_neg hE] at h
                injection h with h; subst h; exact ⟨t1, t2, t3⟩

/-- A whole `dropFold` run preserves strip-stability. -/
theorem dropFold_trimmed {shared : List String} :
    ∀ (cs : List Cell) (acc acc' : Dropdowns),
      dropFold shared acc cs = .ok acc' → TrimmedLists acc → TrimmedLists acc'
  | [], acc, acc', h, ht => by
    injection h with h; subst h; exact ht
  | c :: cs, acc, acc', h, ht => by
    unfold dropFold at h
    cases hs : dropStep shared acc c with
    | error e =>
      simp only [hs] at h
      exact Except.noConfusion h
    | ok acc1 =>
      simp only [hs] at h
      exact dropFold_trimmed cs acc1 acc' h (dropStep_trimmed hs ht)

/-- C3: counterexample to the claim as stated.  A single dropdown-sheet
cell `A2` whose decoded value is the whitespace-only string `" "` passes
the falsiness check (it is truthy), strips to `""`, and that EMPTY
string is appended to the rejection-type list — so not every appended
string is nonempty, and a whitespace-only cell does contribute. -/
theorem c3_counterexample :
    readDropdowns []
        ⟨none, [("s", "p")], [("p", [⟨some "2", [⟨some "A2", none, some " "⟩]⟩])]⟩ "p"
      = .ok ⟨[""], [], []⟩ := rfl

/-- C3 amended: every string appended to the three dropdown lists is
trimmed, cells in non-designated columns never contribute (whenever the
step returns at all), and a cell decoding to `None` or the empty string
contributes nothing — but a whitespace-only (truthy) value contributes
the empty string after trimming, so appended strings need not be
nonempty. -/
theorem c3_amended (shared : List String) (zf : Workbook) (path : String)
    (d : Dropdowns) (acc acc2 : Dropdowns) (c c2 : Cell) (col row : String)
    (h1 : readDropdowns shared zf path = .ok d)
    (h2 : matchColRow (c.r.getD "") = some (col, row))
    (h3 : col ≠ "A") (h4 : col ≠ "C") (h5 : col ≠ "E")
    (h6 : cellValue shared c2 = .ok none ∨ cellValue shared c2 = .ok (some "")) :
    TrimmedLists d ∧
      (dropStep shared acc c = .ok acc ∨ ∃ e, dropStep shared acc c = .error e) ∧
      dropStep shared acc2 c2 = .ok acc2 := by
  refine ⟨?_, ?_, ?_⟩
  · unfold readDropdowns at h1
    cases hg : getPart zf path with
    | error e =>
      rw [hg] at h1
      exact Except.noConfusion h1
    | ok rows =>
      rw [hg] at h1
      cases hfo : dropFold shared Dropdowns.empty (sheetCells rows) with
      | error e =>
        simp only [hfo] at h1
        exact Except.noConfusion h1
      | ok d0 =>
        simp only [hfo] at h1
        injection h1 with h1
        subst h1
        have ht0 : TrimmedLists Dropdowns.empty := by
          refine ⟨?_, ?_, ?_⟩ <;> intro s hs <;> simp [Dropdowns.empty] at hs
        have ht := dropFold_trimmed (sheetCells rows) Dropdowns.empty d0 hfo ht0
        obtain ⟨t1, t2, t3⟩ := ht
        exact ⟨fun s hs => t1 s (mem_of_mem_dedup hs),
          fun s hs => t2 s (mem_of_mem_dedup hs),
          fun s hs => t3 s (mem_of_mem_dedup hs)⟩
  · unfold dropStep
    simp only [h2]
    by_cases hrow : (col, row).2 = "1"
    · rw [if_pos hrow]; exact Or.inl rfl
    · rw [if_neg hrow]
      split
      next e heq => exact Or.inr ⟨e, rfl⟩
      next v heq =>
        by_cases hfal : v = none ∨ v = some ""
        · rw [if_pos hfal]; exact Or.inl rfl
        · rw [if_neg hfal, if_neg h3, if_neg h4, if_neg h5]
          exact Or.inl rfl
  · unfold dropStep
    cases hm : matchColRow (c2.r.getD "") with
    | none => rfl
    | some cr =>
      simp only [hm]
      by_cases hrow : cr.2 = "1"
      · rw [if_pos hrow]
      · rw [if_neg hrow]
        rcases h6 with hv | hv
        · simp [hv]
        · simp [hv]

/-- C3 amended, witnessed: a well-formed dropdown sheet with trimmed
output, a column-G cell that never contributes, and a `<v>`-less cell
that contributes nothing. -/
theorem c3_witness :
    TrimmedLists ⟨["x"], [], []⟩ ∧
      (dropStep [] Dropdowns.empty ⟨some "G2", none, some "zz"⟩ = .ok Dropdowns.empty ∨
        ∃ e, dropStep [] Dropdowns.empty ⟨some "G2", none, some "zz"⟩ = .error e) ∧
      dropStep [] Dropdowns.empty ⟨some "A5", none, none⟩ = .ok Dropdowns.empty :=
  c3_amended []
    ⟨none, [("s", "q")], [("q", [⟨some "2", [⟨some "A2", none, some " x "⟩]⟩])]⟩ "q"
    ⟨["x"], [], []⟩ Dropdowns.empty Dropdowns.empty
    ⟨some "G2", none, some "zz"⟩ ⟨some "A5", none, none⟩ "G" "2"
    rfl rfl (by decide) (by decide) (by decide) (Or.inl rfl)

/-- C4: a row at or above the header threshold that processes without an
uncaught exception contributes a record iff at least one of its cells
lies in a mapped column and decodes to a value that is nonempty after
trimming. -/
theorem c4_row_inclusion_iff (shared : List String) (row : Row) (i : Int)
    (r : Option (List (String × String)))
    (h1 : pyInt (row.r.getD "0") = some i) (h2 : 7 ≤ i)
    (h3 : processRow shared row = .ok r) :
    r.isSome = true ↔ ∃ c ∈ row.cells, cellContributes shared c = true := by
  have hnl : ¬ i < 7 := by omega
  simp only [processRow, h1, if_neg hnl] at h3
  cases hf : cellFold shared ([], false) row.cells with
  | error e =>
    rw [hf] at h3
    exact Except.noConfusion h3
  | ok p =>
    rw [hf] at h3
    injection h3 with h3
    subst h3
    have hiff := cellFold_snd row.cells ([], false) p hf
    simp only [Bool.false_eq_true, false_or] at hiff
    cases hp : p.2 with
    | true => simp [hp, hiff.mp hp]
    | false =>
      rw [hp] at hiff
      simp only [Bool.false_eq_true, false_iff] at hiff
      simp [hp, hiff]

/-- C4, witnessed: in row 8 an unmapped column-B cell does not count, a
mapped column-A cell with text does, so the row yields a record. -/
theorem c4_witness :
    ((some [("tag_number", "tag")] : Option (List (String × String))).isSome = true
      ↔ ∃ c ∈ [Cell.mk (some "B8") none (some "x"),
          Cell.mk (some "A8") none (some " tag ")],
          cellContributes [] c = true) :=
  c4_row_inclusion_iff []
    ⟨some "8", [⟨some "B8", none, some "x"⟩, ⟨some "A8", none, some " tag "⟩]⟩
    8 (some [("tag_number", "tag")]) rfl (by decide) rfl

/-- The probe loop: if every probe answers without raising and some
sheet answers `true`, the loop returns a sheet that answers `true`. -/
theorem probeSheets_finds {shared : List String} {zf : Workbook} {needle : String} :
    ∀ paths : List String,
      (∀ q ∈ paths, ∃ b, sheetContainsText shared zf q needle = .ok b) →
      (∃ q ∈ paths, sheetContainsText shared zf q needle = .ok true) →
      ∃ p, probeSheets shared zf needle paths = .ok (some p) ∧
        sheetContainsText shared zf p needle = .ok true ∧ p ∈ paths
  | [], _, hex => by simp at hex
  | q :: qs, hall, hex => by
    obtain ⟨b, hb⟩ := hall q (List.mem_cons_self q qs)
    cases b with
    | true =>
      refine ⟨q, ?_, hb, List.mem_cons_self q qs⟩
      unfold probeSheets
      rw [hb]
      exact rfl
    | false =>
      rcases hex with ⟨q', hq', htrue⟩
      rcases List.mem_cons.mp hq' with hh | hh
      · subst hh
        rw [hb] at htrue
        injection htrue with hbt
        exact Bool.noConfusion hbt
      · obtain ⟨p, hp1, hp2, hp3⟩ :=
          probeSheets_finds qs (fun r hr => hall r (List.mem_cons_of_mem q hr))
            ⟨q', hh, htrue⟩
        refine ⟨p, ?_, hp2, List.mem_cons_of_mem q hp3⟩
        unfold probeSheets
        rw [hb]
        exact hp1

/-- C7: when no sheet name matches the `"nc log"` prefix but some sheet
holds a cell whose decoded text contains `"Tag Number"` (and all content
probes decode without raising), the locator resolves the log sheet via
the content-probe fallback, returning a sheet that contains the marker. -/
theorem c7_content_probe_fallback (shared : List String) (zf : Workbook)
    (targets : List (String × String))
    (h1 : ∀ pr ∈ targets, strStartsWith (pyLower pr.1) "nc log" = false)
    (h2 : ∀ q ∈ targets.map Prod.snd,
      ∃ b, sheetContainsText shared zf q "Tag Number" = .ok b)
    (h3 : ∃ q ∈ targets.map Prod.snd,
      sheetContainsText shared zf q "Tag Number" = .ok true) :
    ∃ p, findLogSheet shared zf targets = .ok (some p) ∧
      sheetContainsText shared zf p "Tag Number" = .ok true ∧
      p ∈ targets.map Prod.snd := by
  have hfind : targets.find? (fun pr => strStartsWith (pyLower pr.1) "nc log") = none := by
    rw [List.find?_eq_none]
    intro x hx
    simp [h1 x hx]
  unfold findLogSheet
  rw [hfind]
  exact probeSheets_finds (targets.map Prod.snd) h2 h3

/-- C7, witnessed: a workbook whose only sheet is named `"Data"` (no
name match) but whose cells contain `"the Tag Number col"` resolves that
sheet as the log sheet. -/
theorem c7_witness :
    findLogSheet []
      ⟨none, [("Data", "p1")],
        [("p1", [⟨some "1", [⟨some "A1", none, some "the Tag Number col"⟩]⟩])]⟩
      [("Data", "p1")] = .ok (some "p1") := by
  obtain ⟨p, hp1, hp2, hp3⟩ := c7_content_probe_fallback []
    ⟨none, [("Data", "p1")],
      [("p1", [⟨some "1", [⟨some "A1", none, some "the Tag Number col"⟩]⟩])]⟩
    [("Data", "p1")]
    (by decide)
    (fun q hq => by
      rw [show ([("Data", "p1")].map Prod.snd) = ["p1"] from rfl] at hq
      rw [List.mem_singleton.mp hq]
      exact ⟨true, rfl⟩)
    ⟨"p1", by simp, rfl⟩
  have hp : p = "p1" := by simpa using hp3
  rw [hp] at hp1
  exact hp1

/-- C9: when neither locator stage finds the log sheet the load aborts
with the log-specific `ValueError`; when the log sheet is found but the
dropdown locator fails the load aborts with the dropdown-specific
`ValueError`; the two error values are distinct. -/
theorem c9_sheet_not_found_conditions_distinct (zf1 zf2 : Workbook) (p : String)
    (h1 : findLogSheet (readSharedStrings zf1.sharedStrings) zf1 zf1.sheets = .ok none)
    (h2 : findLogSheet (readSharedStrings zf2.sharedStrings) zf2 zf2.sheets = .ok (some p))
    (h3 : findDropdownSheet (readSharedStrings zf2.sharedStrings) zf2 zf2.sheets = .ok none) :
    loadExcelData zf1
        = .error (.valueError "Could not locate NC Log worksheet in workbook.") ∧
      loadExcelData zf2
        = .error (.valueError "Could not locate dropdown worksheet in workbook.") ∧
      Err.valueError "Could not locate NC Log worksheet in workbook."
        ≠ Err.valueError "Could not locate dropdown worksheet in workbook." := by
  refine ⟨?_, ?_, by decide⟩
  · simp only [loadExcelData]
    rw [h1]
  · simp only [loadExcelData]
    rw [h2, h3]

/-- C9, witnessed: a sheetless workbook yields the log error; a workbook
whose only sheet carries the log marker but not the dropdown marker
yields the dropdown error. -/
theorem c9_witness :
    loadExcelData ⟨none, [], []⟩
        = .error (.valueError "Could not locate NC Log worksheet in workbook.") ∧
      loadExcelData
          ⟨none, [("x", "p")], [("p", [⟨some "1", [⟨some "A1", none, some "Tag Number"⟩]⟩])]⟩
        = .error (.valueError "Could not locate dropdown worksheet in workbook.") ∧
      Err.valueError "Could not locate NC Log worksheet in workbook."
        ≠ Err.valueError "Could not locate dropdown worksheet in workbook." :=
  c9_sheet_not_found_conditions_distinct ⟨none, [], []⟩
    ⟨none, [("x", "p")], [("p", [⟨some "1", [⟨some "A1", none, some "Tag Number"⟩]⟩])]⟩
    "p" rfl rfl rfl

end Noncon
